import Mathlib

/-!
Shallow embedding of the Consent & Access Authorization Engine of the
patient-x parachain repository: the IdentityRegistry, ConsentManager,
AccessControl and EncryptionKeyManager pallets.

Modelling conventions:
* Account ids, hashes (H256 / T::Hash) and timestamps are natural numbers.
* Storage maps (FRAME StorageMap / StorageDoubleMap) are total functions
  into Option, updated pointwise; ValueQuery maps return their default.
* The content-derived entity ids (Blake2 hashes of owner, consumer and a
  monotone counter) are modelled by the injective pairing Nat.pair: the
  spec treats these ids as collision-resistant, so the model makes them
  collision-free.  The u64 counters use Nat successor in place of
  saturating_add, which agrees with the source below 2 to the 64 calls.
* Each dispatchable is a function returning Except Err State.  An error
  result carries no state: this is exactly the FRAME guarantee that a
  failing extrinsic aborts its transaction and discards every storage
  write made during the call (the separate dispatch functions expose the
  resulting visible state).  The bodies thread intermediate states in the
  same order as the Rust storage writes.
* Events are not modelled: no claim depends on an event surviving a
  successful call, and events of a failing call are discarded with the
  transaction.
-/

/-- Pointwise update of a function-backed storage map. -/
def fupd {α β : Type} [DecidableEq α] (m : α → β) (k : α) (v : β) : α → β :=
  fun x => if x = k then v else m x

/-- Combined error enumeration of the four pallets (names as in the source). -/
inductive Err where
  | IdentityAlreadyExists
  | IdentityNotFound
  | DIDAlreadyExists
  | NotAuthorized
  | IdentityNotActive
  | VerificationAlreadyPending
  | InvalidDID
  | InvalidName
  | ConsentNotFound
  | InvalidIdentity
  | InvalidConsumer
  | AlreadyRevoked
  | ConsentExpired
  | InvalidExpiryTime
  | MaxConsentsReached
  | MaxAccessLogsReached
  | InvalidDataTypes
  | RequestNotFound
  | KeyNotFound
  | KeyAlreadyRevoked
  | MaxKeysReached
  | RecordAlreadyHasKey
  | NoKeyForRecord
  deriving DecidableEq, Repr

/-- User roles (identity-registry pallet). -/
inductive UserRole where
  | Patient
  | Researcher
  | Institution
  | Auditor
  deriving DecidableEq, Repr

/-- Identity verification status (identity-registry pallet). -/
inductive VerificationStatus where
  | Unverified
  | Pending
  | Verified
  | Rejected
  deriving DecidableEq, Repr

/-- The Identity record (identity-registry pallet). -/
structure Identity where
  did : List Nat
  role : UserRole
  name : List Nat
  email_hash : Nat
  verification_status : VerificationStatus
  registered_at : Nat
  updated_at : Nat
  owner : Nat
  active : Bool
  deriving DecidableEq, Repr

/-- Storage of the identity-registry pallet. -/
structure IdState where
  identities : Nat → Option Identity
  didToAccount : List Nat → Option Nat
  verificationQueue : Nat → Option Nat

/-- Genesis storage of the identity-registry pallet. -/
def initId : IdState :=
  { identities := fun _ => none
    didToAccount := fun _ => none
    verificationQueue := fun _ => none }

/-- register_identity: the caller registers a fresh identity with a unique DID. -/
def register_identity (σ : IdState) (who : Nat) (did : List Nat) (role : UserRole)
    (name : List Nat) (email_hash : Nat) (now : Nat) : Except Err IdState :=
  if (σ.identities who).isSome then .error .IdentityAlreadyExists
  else if (σ.didToAccount did).isSome then .error .DIDAlreadyExists
  else if did.length < 10 then .error .InvalidDID
  else if name = [] then .error .InvalidName
  else
    let identity : Identity :=
      { did := did, role := role, name := name, email_hash := email_hash
        verification_status := .Unverified, registered_at := now
        updated_at := now, owner := who, active := true }
    .ok { σ with
            identities := fupd σ.identities who (some identity)
            didToAccount := fupd σ.didToAccount did (some who) }

/-- update_identity: partial update of name and email hash only. -/
def update_identity (σ : IdState) (who : Nat) (name : Option (List Nat))
    (email_hash : Option Nat) (now : Nat) : Except Err IdState :=
  match σ.identities who with
  | none => .error .IdentityNotFound
  | some identity =>
    if identity.active = false then .error .IdentityNotActive
    else if name = some [] then .error .InvalidName
    else
      let i1 := match name with
        | some n => { identity with name := n }
        | none => identity
      let i2 := match email_hash with
        | some e => { i1 with email_hash := e }
        | none => i1
      .ok { σ with identities := fupd σ.identities who (some { i2 with updated_at := now }) }

/-- request_verification: queue the caller for verification and mark Pending. -/
def request_verification (σ : IdState) (who : Nat) (now : Nat) : Except Err IdState :=
  match σ.identities who with
  | none => .error .IdentityNotFound
  | some identity =>
    if identity.active = false then .error .IdentityNotActive
    else if (σ.verificationQueue who).isSome then .error .VerificationAlreadyPending
    else
      .ok { σ with
              verificationQueue := fupd σ.verificationQueue who (some now)
              identities := fupd σ.identities who
                (some { identity with verification_status := .Pending }) }

/-- verify_identity: an Auditor caller marks the target Verified.  The source
checks only the role of the caller, not its active flag. -/
def verify_identity (σ : IdState) (verifier target : Nat) (now : Nat) : Except Err IdState :=
  match σ.identities verifier with
  | none => .error .NotAuthorized
  | some vi =>
    if vi.role ≠ .Auditor then .error .NotAuthorized
    else
      match σ.identities target with
      | none => .error .IdentityNotFound
      | some ti =>
        .ok { σ with
                identities := fupd σ.identities target
                  (some { ti with verification_status := .Verified, updated_at := now })
                verificationQueue := fupd σ.verificationQueue target none }

/-- reject_verification: an Auditor caller marks the target Rejected.  As in
verify_identity, only the role of the caller is checked. -/
def reject_verification (σ : IdState) (verifier target : Nat) (_reason : List Nat)
    (now : Nat) : Except Err IdState :=
  match σ.identities verifier with
  | none => .error .NotAuthorized
  | some vi =>
    if vi.role ≠ .Auditor then .error .NotAuthorized
    else
      match σ.identities target with
      | none => .error .IdentityNotFound
      | some ti =>
        .ok { σ with
                identities := fupd σ.identities target
                  (some { ti with verification_status := .Rejected, updated_at := now })
                verificationQueue := fupd σ.verificationQueue target none }

/-- deactivate_identity: the caller deactivates its own identity. -/
def deactivate_identity (σ : IdState) (who : Nat) (now : Nat) : Except Err IdState :=
  match σ.identities who with
  | none => .error .IdentityNotFound
  | some identity =>
    let i2 := { identity with active := false, updated_at := now }
    .ok { σ with identities := fupd σ.identities who (some i2) }

/-- is_active_identity helper (read-only). -/
def is_active_identity (σ : IdState) (account : Nat) : Bool :=
  match σ.identities account with
  | some identity => identity.active
  | none => false

/-- has_role helper (read-only): role match AND active. -/
def has_role (σ : IdState) (account : Nat) (role : UserRole) : Bool :=
  match σ.identities account with
  | some identity => if identity.role = role then identity.active else false
  | none => false

/-- is_verified helper (read-only): Verified AND active. -/
def is_verified (σ : IdState) (account : Nat) : Bool :=
  match σ.identities account with
  | some identity =>
      if identity.verification_status = .Verified then identity.active else false
  | none => false

/-- get_identity_by_did helper (read-only). -/
def get_identity_by_did (σ : IdState) (did : List Nat) : Option Identity :=
  match σ.didToAccount did with
  | some account => σ.identities account
  | none => none

/-- Purpose of data access (consent-manager pallet). -/
inductive DataPurpose where
  | Research
  | ClinicalTrial
  | Treatment
  | DrugDevelopment
  | PublicHealth
  | MachineLearning
  | Other
  deriving DecidableEq, Repr

/-- Types of health data (consent-manager pallet). -/
inductive DataType where
  | All
  | LabResults
  | Imaging
  | Prescriptions
  | Diagnosis
  | Genomic
  | Vitals
  | Demographics
  deriving DecidableEq, Repr

/-- Consent status (consent-manager pallet).  Pending is declared but never
produced by any transition. -/
inductive ConsentStatus where
  | Active
  | Revoked
  | Expired
  | Pending
  deriving DecidableEq, Repr

/-- The Consent record (consent-manager pallet). -/
structure Consent where
  consent_id : Nat
  data_owner : Nat
  data_consumer : Nat
  purpose : DataPurpose
  data_types : List DataType
  created_at : Nat
  expires_at : Nat
  status : ConsentStatus
  revoked_at : Option Nat
  access_count : Nat
  last_accessed : Option Nat
  terms_hash : Nat
  deriving DecidableEq, Repr

/-- Access-log entry (consent-manager pallet). -/
structure AccessLog where
  consent_id : Nat
  accessor : Nat
  accessed_at : Nat
  data_hash : Nat
  approved : Bool
  deriving DecidableEq, Repr

/-- Storage of the consent-manager pallet. -/
structure ConsentState where
  consents : Nat → Option Consent
  ownerConsents : Nat → List Nat
  consumerConsents : Nat → List Nat
  accessLogs : Nat → List AccessLog
  consentCount : Nat

/-- Genesis storage of the consent-manager pallet. -/
def initCons : ConsentState :=
  { consents := fun _ => none
    ownerConsents := fun _ => []
    consumerConsents := fun _ => []
    accessLogs := fun _ => []
    consentCount := 0 }

/-- generate_consent_id: hash of owner, consumer and the monotone counter,
modelled by the injective pairing Nat.pair. -/
def generate_consent_id (owner consumer nonce : Nat) : Nat :=
  Nat.pair (Nat.pair owner consumer) nonce

/-- u32 saturating_add(1), used for access_count. -/
def satAdd32 (x : Nat) : Nat := min (x + 1) 4294967295

/-- create_consent: role-gated creation of an Active consent; appends the new
id to the bounded owner and consumer indices (capacity 1000 each). -/
def create_consent (ids : IdState) (σ : ConsentState) (owner consumer : Nat)
    (purpose : DataPurpose) (data_types : List DataType) (expires_at : Nat)
    (terms_hash : Nat) (now : Nat) : Except Err ConsentState :=
  if has_role ids owner .Patient = false then .error .InvalidIdentity
  else if (has_role ids consumer .Researcher || has_role ids consumer .Institution) = false
    then .error .InvalidConsumer
  else if data_types = [] then .error .InvalidDataTypes
  else if 0 < expires_at ∧ expires_at ≤ now then .error .InvalidExpiryTime
  else
    let cid := generate_consent_id owner consumer σ.consentCount
    let consent : Consent :=
      { consent_id := cid, data_owner := owner, data_consumer := consumer
        purpose := purpose, data_types := data_types, created_at := now
        expires_at := expires_at, status := .Active, revoked_at := none
        access_count := 0, last_accessed := none, terms_hash := terms_hash }
    if 1000 ≤ (σ.ownerConsents owner).length then .error .MaxConsentsReached
    else if 1000 ≤ (σ.consumerConsents consumer).length then .error .MaxConsentsReached
    else
      .ok { σ with
              consentCount := σ.consentCount + 1
              consents := fupd σ.consents cid (some consent)
              ownerConsents := fupd σ.ownerConsents owner (σ.ownerConsents owner ++ [cid])
              consumerConsents :=
                fupd σ.consumerConsents consumer (σ.consumerConsents consumer ++ [cid]) }

/-- revoke_consent: owner-only terminal transition to Revoked. -/
def revoke_consent (σ : ConsentState) (revoker cid now : Nat) : Except Err ConsentState :=
  match σ.consents cid with
  | none => .error .ConsentNotFound
  | some consent =>
    if consent.data_owner ≠ revoker then .error .NotAuthorized
    else if consent.status = .Revoked then .error .AlreadyRevoked
    else
      let c2 := { consent with status := ConsentStatus.Revoked, revoked_at := some now }
      .ok { σ with consents := fupd σ.consents cid (some c2) }

/-- update_consent: owner-only edit of expiry and data types, Active only. -/
def update_consent (σ : ConsentState) (updater cid : Nat) (new_expires_at : Option Nat)
    (new_data_types : Option (List DataType)) (now : Nat) : Except Err ConsentState :=
  match σ.consents cid with
  | none => .error .ConsentNotFound
  | some consent =>
    if consent.data_owner ≠ updater then .error .NotAuthorized
    else if consent.status ≠ .Active then .error .ConsentExpired
    else if (match new_expires_at with
             | some e => decide (0 < e) && decide (e ≤ now)
             | none => false) = true then .error .InvalidExpiryTime
    else if new_data_types = some [] then .error .InvalidDataTypes
    else
      let c1 := match new_expires_at with
        | some e => { consent with expires_at := e }
        | none => consent
      let c2 := match new_data_types with
        | some dts => { c1 with data_types := dts }
        | none => c1
      .ok { σ with consents := fupd σ.consents cid (some c2) }

/-- log_access: records an access against an Active, unexpired consent.  On a
time-expired consent the closure flips the status to Expired and then returns
an error; FRAME try_mutate discards the entry write and the failing extrinsic
rolls back, so the error branch carries no state change. -/
def log_access (σ : ConsentState) (accessor cid data_hash now : Nat) :
    Except Err ConsentState :=
  match σ.consents cid with
  | none => .error .ConsentNotFound
  | some consent =>
    if consent.status ≠ .Active then .error .ConsentExpired
    else if 0 < consent.expires_at ∧ consent.expires_at < now then .error .ConsentExpired
    else if 1000 ≤ (σ.accessLogs cid).length then .error .MaxAccessLogsReached
    else
      let c2 := { consent with
                    access_count := satAdd32 consent.access_count
                    last_accessed := some now }
      let entry : AccessLog :=
        { consent_id := cid, accessor := accessor, accessed_at := now
          data_hash := data_hash, approved := true }
      .ok { σ with
              consents := fupd σ.consents cid (some c2)
              accessLogs := fupd σ.accessLogs cid (σ.accessLogs cid ++ [entry]) }

/-- check_consent: read-style transaction verifying Active status, absence of
time expiry (strict: expires_at < now fails, equality passes) and that the
accessor is the designated consumer. -/
def check_consent (σ : ConsentState) (cid accessor now : Nat) : Except Err Unit :=
  match σ.consents cid with
  | none => .error .ConsentNotFound
  | some consent =>
    if consent.status ≠ .Active then .error .ConsentExpired
    else if 0 < consent.expires_at ∧ consent.expires_at < now then .error .ConsentExpired
    else if consent.data_consumer ≠ accessor then .error .NotAuthorized
    else .ok ()

/-- get_active_consents_for_owner helper (read-only). -/
def get_active_consents_for_owner (σ : ConsentState) (owner : Nat) : List Consent :=
  ((σ.ownerConsents owner).filterMap σ.consents).filter
    (fun c => c.status = ConsentStatus.Active)

/-- get_active_consents_for_consumer helper (read-only). -/
def get_active_consents_for_consumer (σ : ConsentState) (consumer : Nat) : List Consent :=
  ((σ.consumerConsents consumer).filterMap σ.consents).filter
    (fun c => c.status = ConsentStatus.Active)

/-- is_consent_valid helper (read-only, pure): Active, expiry absent or in the
strict future (expires_at > now), and accessor is the consumer. -/
def is_consent_valid (σ : ConsentState) (cid accessor now : Nat) : Bool :=
  match σ.consents cid with
  | none => false
  | some consent =>
    decide (consent.status = .Active)
      && (decide (consent.expires_at = 0) || decide (consent.expires_at > now))
      && decide (consent.data_consumer = accessor)

/-- Access request status (access-control pallet).  Expired is declared but
never produced by any transition. -/
inductive AccessStatus where
  | Pending
  | Granted
  | Denied
  | Expired
  deriving DecidableEq, Repr

/-- The AccessRequest record (access-control pallet). -/
structure AccessRequest where
  request_id : Nat
  record_id : Nat
  requester : Nat
  patient : Nat
  consent_id : Option Nat
  status : AccessStatus
  requested_at : Nat
  responded_at : Option Nat
  deriving DecidableEq, Repr

/-- Storage of the access-control pallet.  accessGrants is the double map
record_id, requester to expires_at. -/
structure AccessState where
  accessRequests : Nat → Option AccessRequest
  accessGrants : Nat → Nat → Option Nat
  requestCount : Nat

/-- Genesis storage of the access-control pallet. -/
def initAcc : AccessState :=
  { accessRequests := fun _ => none
    accessGrants := fun _ _ => none
    requestCount := 0 }

/-- generate_request_id: hash of requester and counter, modelled by Nat.pair. -/
def generate_request_id (requester nonce : Nat) : Nat := Nat.pair requester nonce

/-- request_access: any signed caller files a Pending request. -/
def request_access (σ : AccessState) (requester record_id patient consent_id now : Nat) :
    Except Err AccessState :=
  let rid := generate_request_id requester σ.requestCount
  let request : AccessRequest :=
    { request_id := rid, record_id := record_id, requester := requester
      patient := patient, consent_id := some consent_id, status := .Pending
      requested_at := now, responded_at := none }
  .ok { σ with
          requestCount := σ.requestCount + 1
          accessRequests := fupd σ.accessRequests rid (some request) }

/-- grant_access: patient-only; marks the request Granted and writes the
AccessGrant for (record_id, requester).  No consent check is performed here. -/
def grant_access (σ : AccessState) (who request_id expires_at now : Nat) :
    Except Err AccessState :=
  match σ.accessRequests request_id with
  | none => .error .RequestNotFound
  | some request =>
    if request.patient ≠ who then .error .NotAuthorized
    else
      let r2 := { request with status := AccessStatus.Granted, responded_at := some now }
      .ok { σ with
              accessRequests := fupd σ.accessRequests request_id (some r2)
              accessGrants := fupd σ.accessGrants request.record_id
                (fupd (σ.accessGrants request.record_id) request.requester (some expires_at)) }

/-- deny_access: patient-only; marks the request Denied.  The grants map is
not touched. -/
def deny_access (σ : AccessState) (who request_id now : Nat) : Except Err AccessState :=
  match σ.accessRequests request_id with
  | none => .error .RequestNotFound
  | some request =>
    if request.patient ≠ who then .error .NotAuthorized
    else
      let r2 := { request with status := AccessStatus.Denied, responded_at := some now }
      .ok { σ with accessRequests := fupd σ.accessRequests request_id (some r2) }

/-- revoke_access: deletes the AccessGrant; the source performs no ownership
check on the caller and succeeds even if no grant existed. -/
def revoke_access (σ : AccessState) (_who record_id requester : Nat) :
    Except Err AccessState :=
  .ok { σ with
          accessGrants := fupd σ.accessGrants record_id
            (fupd (σ.accessGrants record_id) requester none) }

/-- has_access helper (read-only, pure): a grant exists and expires_at > now
(strict, equality is expired). -/
def has_access (σ : AccessState) (record_id requester now : Nat) : Bool :=
  match σ.accessGrants record_id requester with
  | some expires_at => decide (expires_at > now)
  | none => false

/-- Encryption algorithm (encryption pallet). -/
inductive EncryptionAlgorithm where
  | ChaCha20Poly1305
  | AES256GCM
  deriving DecidableEq, Repr

/-- Key purpose (encryption pallet). -/
inductive KeyPurpose where
  | RecordEncryption
  | DataEncryption
  | KeyEncryption
  deriving DecidableEq, Repr

/-- The EncryptionKey record (encryption pallet). -/
structure EncryptionKey where
  key_id : Nat
  owner : Nat
  algorithm : EncryptionAlgorithm
  purpose : KeyPurpose
  record_id : Option Nat
  created_at : Nat
  expires_at : Option Nat
  active : Bool
  rotated : Bool
  rotated_to : Option Nat
  deriving DecidableEq, Repr

/-- The KeyAccess grant record (encryption pallet). -/
structure KeyAccess where
  grantee : Nat
  granted_at : Nat
  expires_at : Option Nat
  deriving DecidableEq, Repr

/-- Storage of the encryption pallet. -/
structure EncState where
  encryptionKeys : Nat → Option EncryptionKey
  accountKeys : Nat → List Nat
  recordKeys : Nat → Option Nat
  keyAccessGrants : Nat → Nat → Option KeyAccess
  keyCount : Nat

/-- Genesis storage of the encryption pallet. -/
def initEnc : EncState :=
  { encryptionKeys := fun _ => none
    accountKeys := fun _ => []
    recordKeys := fun _ => none
    keyAccessGrants := fun _ _ => none
    keyCount := 0 }

/-- generate_key_id: hash of owner and counter, modelled by Nat.pair. -/
def generate_key_id (owner nonce : Nat) : Nat := Nat.pair owner nonce

/-- generate_key: creates an active key, enforcing the per-account cap
(maxKeys, the MaxKeysPerAccount config constant) and at most one key per
record.  The second capacity check of the source (try_push on the list
already checked against the cap) cannot fail under the first and is folded
into it. -/
def generate_key (maxKeys : Nat) (σ : EncState) (owner : Nat)
    (algorithm : EncryptionAlgorithm) (purpose : KeyPurpose)
    (record_id : Option Nat) (expires_at : Option Nat) (now : Nat) :
    Except Err EncState :=
  if maxKeys ≤ (σ.accountKeys owner).length then .error .MaxKeysReached
  else if (match record_id with
           | some rid => (σ.recordKeys rid).isSome
           | none => false) = true then .error .RecordAlreadyHasKey
  else
    let kid := generate_key_id owner σ.keyCount
    let key : EncryptionKey :=
      { key_id := kid, owner := owner, algorithm := algorithm, purpose := purpose
        record_id := record_id, created_at := now, expires_at := expires_at
        active := true, rotated := false, rotated_to := none }
    let recKeys := match record_id with
      | some rid => fupd σ.recordKeys rid (some kid)
      | none => σ.recordKeys
    .ok { σ with
            keyCount := σ.keyCount + 1
            encryptionKeys := fupd σ.encryptionKeys kid (some key)
            accountKeys := fupd σ.accountKeys owner (σ.accountKeys owner ++ [kid])
            recordKeys := recKeys }

/-- rotate_key: owner-only; deactivates the old key of a record, creates a new
active key, repoints the record index and appends to the account key list
(which can hit the cap).  The write-back of the mutated old key happens after
the insertion of the new key, as in the source try_mutate closure. -/
def rotate_key (maxKeys : Nat) (σ : EncState) (who record_id : Nat)
    (new_algorithm : EncryptionAlgorithm) (expires_at : Option Nat) (now : Nat) :
    Except Err EncState :=
  match σ.recordKeys record_id with
  | none => .error .NoKeyForRecord
  | some old_key_id =>
    match σ.encryptionKeys old_key_id with
    | none => .error .KeyNotFound
    | some old_key =>
      if old_key.owner ≠ who then .error .NotAuthorized
      else
        let new_key_id := generate_key_id who σ.keyCount
        let new_key : EncryptionKey :=
          { key_id := new_key_id, owner := who, algorithm := new_algorithm
            purpose := old_key.purpose, record_id := some record_id
            created_at := now, expires_at := expires_at
            active := true, rotated := false, rotated_to := none }
        let old2 := { old_key with
                        rotated := true, active := false
                        rotated_to := some new_key_id }
        if maxKeys ≤ (σ.accountKeys who).length then .error .MaxKeysReached
        else
          let keys1 := fupd σ.encryptionKeys new_key_id (some new_key)
          .ok { σ with
                  keyCount := σ.keyCount + 1
                  recordKeys := fupd σ.recordKeys record_id (some new_key_id)
                  accountKeys := fupd σ.accountKeys who (σ.accountKeys who ++ [new_key_id])
                  encryptionKeys := fupd keys1 old_key_id (some old2) }

/-- revoke_key: owner-only; fails KeyAlreadyRevoked if already inactive. -/
def revoke_key (σ : EncState) (who key_id : Nat) : Except Err EncState :=
  match σ.encryptionKeys key_id with
  | none => .error .KeyNotFound
  | some key =>
    if key.owner ≠ who then .error .NotAuthorized
    else if key.active = false then .error .KeyAlreadyRevoked
    else
      let k2 := { key with active := false }
      .ok { σ with encryptionKeys := fupd σ.encryptionKeys key_id (some k2) }

/-- grant_key_access: owner-only; writes a KeyAccess record for the grantee. -/
def grant_key_access (σ : EncState) (who key_id grantee : Nat)
    (expires_at : Option Nat) (now : Nat) : Except Err EncState :=
  match σ.encryptionKeys key_id with
  | none => .error .KeyNotFound
  | some key =>
    if key.owner ≠ who then .error .NotAuthorized
    else
      let access : KeyAccess := { grantee := grantee, granted_at := now
                                  expires_at := expires_at }
      .ok { σ with
              keyAccessGrants := fupd σ.keyAccessGrants key_id
                (fupd (σ.keyAccessGrants key_id) grantee (some access)) }

/-- revoke_key_access: owner-only; removes the KeyAccess record. -/
def revoke_key_access (σ : EncState) (who key_id grantee : Nat) :
    Except Err EncState :=
  match σ.encryptionKeys key_id with
  | none => .error .KeyNotFound
  | some key =>
    if key.owner ≠ who then .error .NotAuthorized
    else
      .ok { σ with
              keyAccessGrants := fupd σ.keyAccessGrants key_id
                (fupd (σ.keyAccessGrants key_id) grantee none) }

/-- has_key_access helper (read-only): active non-expired owner, or a
KeyAccess grant without expiry or not yet expired. -/
def has_key_access (σ : EncState) (key_id account now : Nat) : Bool :=
  let ownerOk := match σ.encryptionKeys key_id with
    | some key =>
      if key.owner = account ∧ key.active = true then
        match key.expires_at with
        | some e => decide (now < e)
        | none => true
      else false
    | none => false
  if ownerOk then true
  else match σ.keyAccessGrants key_id account with
    | some access =>
      match access.expires_at with
      | some e => decide (now < e)
      | none => true
    | none => false

/-- get_record_key helper (read-only): current key id of a record. -/
def get_record_key (σ : EncState) (record_id : Nat) : Option Nat :=
  σ.recordKeys record_id

/-- The operations of the identity-registry pallet, with their arguments and
the clock value at which the call runs. -/
inductive IdOp where
  | register (who : Nat) (did : List Nat) (role : UserRole) (name : List Nat)
      (email_hash now : Nat)
  | update (who : Nat) (name : Option (List Nat)) (email_hash : Option Nat) (now : Nat)
  | requestVerification (who now : Nat)
  | verify (verifier target now : Nat)
  | reject (verifier target : Nat) (reason : List Nat) (now : Nat)
  | deactivate (who now : Nat)

/-- Dispatch of one identity-registry operation. -/
def applyId (σ : IdState) : IdOp → Except Err IdState
  | .register who did role name email_hash now =>
      register_identity σ who did role name email_hash now
  | .update who name email_hash now => update_identity σ who name email_hash now
  | .requestVerification who now => request_verification σ who now
  | .verify verifier target now => verify_identity σ verifier target now
  | .reject verifier target reason now => reject_verification σ verifier target reason now
  | .deactivate who now => deactivate_identity σ who now

/-- The operations of the consent-manager pallet. -/
inductive ConsOp where
  | create (owner consumer : Nat) (purpose : DataPurpose) (data_types : List DataType)
      (expires_at terms_hash now : Nat)
  | revoke (revoker cid now : Nat)
  | update (updater cid : Nat) (new_expires_at : Option Nat)
      (new_data_types : Option (List DataType)) (now : Nat)
  | logAccess (accessor cid data_hash now : Nat)
  | check (cid accessor now : Nat)

/-- Dispatch of one consent-manager operation; reads the identity-registry
state for the role checks of create_consent. -/
def applyCons (ids : IdState) (σ : ConsentState) : ConsOp → Except Err ConsentState
  | .create owner consumer purpose data_types expires_at terms_hash now =>
      create_consent ids σ owner consumer purpose data_types expires_at terms_hash now
  | .revoke revoker cid now => revoke_consent σ revoker cid now
  | .update updater cid e dts now => update_consent σ updater cid e dts now
  | .logAccess accessor cid data_hash now => log_access σ accessor cid data_hash now
  | .check cid accessor now =>
      match check_consent σ cid accessor now with
      | .ok _ => .ok σ
      | .error e => .error e

/-- The operations of the access-control pallet. -/
inductive AccOp where
  | request (requester record_id patient consent_id now : Nat)
  | grant (who request_id expires_at now : Nat)
  | deny (who request_id now : Nat)
  | revoke (who record_id requester : Nat)

/-- Dispatch of one access-control operation. -/
def applyAcc (σ : AccessState) : AccOp → Except Err AccessState
  | .request requester record_id patient consent_id now =>
      request_access σ requester record_id patient consent_id now
  | .grant who request_id expires_at now => grant_access σ who request_id expires_at now
  | .deny who request_id now => deny_access σ who request_id now
  | .revoke who record_id requester => revoke_access σ who record_id requester

/-- The operations of the encryption pallet. -/
inductive EncOp where
  | generate (owner : Nat) (algorithm : EncryptionAlgorithm) (purpose : KeyPurpose)
      (record_id expires_at : Option Nat) (now : Nat)
  | rotate (who record_id : Nat) (new_algorithm : EncryptionAlgorithm)
      (expires_at : Option Nat) (now : Nat)
  | revokeKey (who key_id : Nat)
  | grantAccess (who key_id grantee : Nat) (expires_at : Option Nat) (now : Nat)
  | revokeAccess (who key_id grantee : Nat)

/-- Dispatch of one encryption operation under the MaxKeysPerAccount constant. -/
def applyEnc (maxKeys : Nat) (σ : EncState) : EncOp → Except Err EncState
  | .generate owner algorithm purpose record_id expires_at now =>
      generate_key maxKeys σ owner algorithm purpose record_id expires_at now
  | .rotate who record_id new_algorithm expires_at now =>
      rotate_key maxKeys σ who record_id new_algorithm expires_at now
  | .revokeKey who key_id => revoke_key σ who key_id
  | .grantAccess who key_id grantee expires_at now =>
      grant_key_access σ who key_id grantee expires_at now
  | .revokeAccess who key_id grantee => revoke_key_access σ who key_id grantee

/-- Combined storage of the four core modules. -/
structure World where
  ids : IdState
  cons : ConsentState
  acc : AccessState
  enc : EncState

/-- Genesis combined storage. -/
def initWorld : World :=
  { ids := initId, cons := initCons, acc := initAcc, enc := initEnc }

/-- Any operation of the four core modules. -/
inductive Op where
  | idOp (op : IdOp)
  | consOp (op : ConsOp)
  | accOp (op : AccOp)
  | encOp (op : EncOp)

/-- Raw dispatch of one operation on the combined storage: success yields the
committed state, an error yields no state. -/
def applyWorld (maxKeys : Nat) (w : World) : Op → Except Err World
  | .idOp op =>
      match applyId w.ids op with
      | .ok σ => .ok { w with ids := σ }
      | .error e => .error e
  | .consOp op =>
      match applyCons w.ids w.cons op with
      | .ok σ => .ok { w with cons := σ }
      | .error e => .error e
  | .accOp op =>
      match applyAcc w.acc op with
      | .ok σ => .ok { w with acc := σ }
      | .error e => .error e
  | .encOp op =>
      match applyEnc maxKeys w.enc op with
      | .ok σ => .ok { w with enc := σ }
      | .error e => .error e

/-- Transactional dispatch, as the host ledger executes a signed call: the
visible state after the call, paired with the error if the call failed.  A
failing call leaves the starting state in place. -/
def dispatchWorld (maxKeys : Nat) (w : World) (op : Op) : World × Option Err :=
  match applyWorld maxKeys w op with
  | .ok w2 => (w2, none)
  | .error e => (w, some e)

/-- One successful identity-registry transition. -/
def IdStep (σ σ2 : IdState) : Prop := ∃ op, applyId σ op = .ok σ2

/-- Identity-registry states reachable from genesis. -/
def IdReachable (σ : IdState) : Prop := Relation.ReflTransGen IdStep initId σ

/-- One successful consent-manager transition, under an arbitrary concurrent
identity-registry state. -/
def ConsStep (σ σ2 : ConsentState) : Prop := ∃ ids op, applyCons ids σ op = .ok σ2

/-- Consent-manager states reachable from genesis. -/
def ConsReachable (σ : ConsentState) : Prop := Relation.ReflTransGen ConsStep initCons σ

/-- One successful encryption-pallet transition under a fixed key cap. -/
def EncStep (maxKeys : Nat) (σ σ2 : EncState) : Prop := ∃ op, applyEnc maxKeys σ op = .ok σ2

/-- Encryption-pallet states reachable from genesis. -/
def EncReachable (maxKeys : Nat) (σ : EncState) : Prop :=
  Relation.ReflTransGen (EncStep maxKeys) initEnc σ

/-- Extract the success state of a call, with a fallback. -/
def exOk {α : Type} (e : Except Err α) (d : α) : α :=
  match e with
  | .ok a => a
  | .error _ => d

theorem fupd_same {α β : Type} [DecidableEq α] (m : α → β) (k : α) (v : β) :
    fupd m k v k = v := by
  simp [fupd]

theorem fupd_other {α β : Type} [DecidableEq α] (m : α → β) (k : α) (v : β)
    {x : α} (h : x ≠ k) : fupd m k v x = m x := by
  simp [fupd, h]

/-- The bijective account-DID correspondence of the identity registry:
records are keyed by their owner, every record is indexed under its DID, and
every DID index entry points back to a record carrying that DID. -/
structure IdInv (σ : IdState) : Prop where
  owner_eq : ∀ a i, σ.identities a = some i → i.owner = a
  did_index : ∀ a i, σ.identities a = some i → σ.didToAccount i.did = some a
  index_did : ∀ d a, σ.didToAccount d = some a → ∃ i, σ.identities a = some i ∧ i.did = d

theorem idInv_init : IdInv initId := by
  refine ⟨?_, ?_, ?_⟩ <;> intro a i h <;> simp [initId] at h

/-- Updating one identity record without changing its DID or owner, and
leaving the DID index untouched, preserves the correspondence. -/
theorem idInv_update_record {σ : IdState} (hinv : IdInv σ) (t : Nat)
    {i1 i2 : Identity} (q : Nat → Option Nat) (ht : σ.identities t = some i1)
    (hdid : i2.did = i1.did) (howner : i2.owner = i1.owner) :
    IdInv { identities := fupd σ.identities t (some i2)
            didToAccount := σ.didToAccount, verificationQueue := q } := by
  refine ⟨?_, ?_, ?_⟩
  · intro a i h
    simp only at h
    by_cases hak : a = t
    · subst hak
      rw [fupd_same] at h
      cases h
      rw [howner]
      exact hinv.owner_eq a i1 ht
    · rw [fupd_other _ _ _ hak] at h
      exact hinv.owner_eq a i h
  · intro a i h
    simp only at h
    by_cases hak : a = t
    · subst hak
      rw [fupd_same] at h
      cases h
      rw [hdid]
      exact hinv.did_index a i1 ht
    · rw [fupd_other _ _ _ hak] at h
      exact hinv.did_index a i h
  · intro d a h
    simp only at h
    obtain ⟨i, hi, hid⟩ := hinv.index_did d a h
    by_cases hak : a = t
    · subst hak
      refine ⟨i2, ?_, ?_⟩
      · simp [fupd_same]
      · rw [hdid]
        rw [ht] at hi
        cases hi
        exact hid
    · exact ⟨i, by simp only [fupd_other _ _ _ hak]; exact hi, hid⟩

/-- Every successful identity-registry operation preserves the bijective
account-DID correspondence. -/
theorem applyId_preserves_inv {σ σ2 : IdState} (hinv : IdInv σ) (op : IdOp)
    (h : applyId σ op = .ok σ2) : IdInv σ2 := by
  cases op with
  | register who did role name email_hash now =>
    simp only [applyId, register_identity] at h
    split_ifs at h with h1 h2 h3 h4
    injection h with h
    subst h
    have hidn : σ.identities who = none := by
      cases hw : σ.identities who with
      | none => rfl
      | some v => rw [hw] at h1; simp at h1
    have hdn : σ.didToAccount did = none := by
      cases hw : σ.didToAccount did with
      | none => rfl
      | some v => rw [hw] at h2; simp at h2
    refine ⟨?_, ?_, ?_⟩
    · intro a i hai
      simp only at hai
      by_cases hak : a = who
      · subst hak
        rw [fupd_same] at hai
        cases hai
        rfl
      · rw [fupd_other _ _ _ hak] at hai
        exact hinv.owner_eq a i hai
    · intro a i hai
      simp only at hai
      by_cases hak : a = who
      · subst hak
        rw [fupd_same] at hai
        cases hai
        simp [fupd_same]
      · rw [fupd_other _ _ _ hak] at hai
        have hold := hinv.did_index a i hai
        by_cases hdk : i.did = did
        · rw [hdk, hdn] at hold
          cases hold
        · simp only [fupd_other _ _ _ hdk]
          exact hold
    · intro d a hda
      simp only at hda
      by_cases hdk : d = did
      · subst hdk
        rw [fupd_same] at hda
        cases hda
        exact ⟨_, fupd_same _ _ _, rfl⟩
      · rw [fupd_other _ _ _ hdk] at hda
        obtain ⟨i, hi, hid⟩ := hinv.index_did d a hda
        by_cases hak : a = who
        · subst hak
          rw [hidn] at hi
          cases hi
        · exact ⟨i, by simp only [fupd_other _ _ _ hak]; exact hi, hid⟩
  | update who name email_hash now =>
    simp only [applyId, update_identity] at h
    split at h
    · cases h
    case _ identity hw =>
      split_ifs at h with h1 h2
      injection h with h
      subst h
      refine idInv_update_record hinv who _ hw ?_ ?_
      · cases name <;> cases email_hash <;> simp
      · cases name <;> cases email_hash <;> simp
  | requestVerification who now =>
    simp only [applyId, request_verification] at h
    split at h
    · cases h
    case _ identity hw =>
      split_ifs at h with h1 h2
      injection h with h
      subst h
      exact idInv_update_record hinv who _ hw rfl rfl
  | verify verifier target now =>
    simp only [applyId, verify_identity] at h
    split at h
    · cases h
    case _ vi hv =>
      split_ifs at h with h1
      split at h
      · cases h
      case _ ti ht =>
        injection h with h
        subst h
        exact idInv_update_record hinv target _ ht rfl rfl
  | reject verifier target reason now =>
    simp only [applyId, reject_verification] at h
    split at h
    · cases h
    case _ vi hv =>
      split_ifs at h with h1
      split at h
      · cases h
      case _ ti ht =>
        injection h with h
        subst h
        exact idInv_update_record hinv target _ ht rfl rfl
  | deactivate who now =>
    simp only [applyId, deactivate_identity] at h
    split at h
    · cases h
    case _ identity hw =>
      injection h with h
      subst h
      exact idInv_update_record hinv who _ hw rfl rfl

/-- Every reachable identity-registry state satisfies the correspondence. -/
theorem idReachable_inv {σ : IdState} (h : IdReachable σ) : IdInv σ := by
  induction h with
  | refl => exact idInv_init
  | tail _ hstep ih =>
    obtain ⟨op, hop⟩ := hstep
    exact applyId_preserves_inv ih op hop

/-- Claim C3: in every reachable IdentityRegistry state, for every account A
at most one Identity record exists with owner = A, for every DID D at most
one account is mapped from D, and the account-DID correspondence is bijective
(every stored identity is indexed under its DID and vice versa); every
operation preserves this, since reachability is closed under all six
operations. -/
theorem identity_account_did_bijective (σ : IdState) (h : IdReachable σ) :
    IdInv σ ∧
    (∀ a b i j, σ.identities a = some i → σ.identities b = some j →
      i.owner = j.owner → a = b) ∧
    (∀ d a b, σ.didToAccount d = some a → σ.didToAccount d = some b → a = b) ∧
    (∀ a b i j, σ.identities a = some i → σ.identities b = some j →
      i.did = j.did → a = b) := by
  have hinv := idReachable_inv h
  refine ⟨hinv, ?_, ?_, ?_⟩
  · intro a b i j ha hb howner
    have h1 := hinv.owner_eq a i ha
    have h2 := hinv.owner_eq b j hb
    rw [← h1, ← h2, howner]
  · intro d a b ha hb
    rw [ha] at hb
    exact Option.some.inj hb
  · intro a b i j ha hb hdid
    have h1 := hinv.did_index a i ha
    have h2 := hinv.did_index b j hb
    rw [hdid, h2] at h1
    exact (Option.some.inj h1).symm

/-- A concrete DID of the minimum legal length. -/
def didW1 : List Nat := List.replicate 10 1

/-- The state after registering account 1 as a Patient at genesis. -/
def idsR1 : IdState := exOk (register_identity initId 1 didW1 .Patient [1] 0 0) initId

theorem identity_account_did_bijective_witness :
    IdInv idsR1 ∧
    (∀ a b i j, idsR1.identities a = some i → idsR1.identities b = some j →
      i.owner = j.owner → a = b) ∧
    (∀ d a b, idsR1.didToAccount d = some a → idsR1.didToAccount d = some b → a = b) ∧
    (∀ a b i j, idsR1.identities a = some i → idsR1.identities b = some j →
      i.did = j.did → a = b) :=
  identity_account_did_bijective idsR1
    (Relation.ReflTransGen.single ⟨IdOp.register 1 didW1 .Patient [1] 0 0, rfl⟩)

/-- Every stored consent id was generated from some owner, consumer and a
nonce strictly below the current counter value. -/
def ConsInv (σ : ConsentState) : Prop :=
  ∀ cid c, σ.consents cid = some c →
    ∃ o k n, n < σ.consentCount ∧ cid = Nat.pair (Nat.pair o k) n

theorem consInv_init : ConsInv initCons := by
  intro cid c h
  simp [initCons] at h

/-- Every successful consent-manager operation preserves ConsInv. -/
theorem applyCons_preserves_consInv {ids : IdState} {σ σ2 : ConsentState}
    (hinv : ConsInv σ) (op : ConsOp) (h : applyCons ids σ op = .ok σ2) : ConsInv σ2 := by
  cases op with
  | create owner consumer purpose data_types expires_at terms_hash now =>
    simp only [applyCons, create_consent] at h
    split_ifs at h with h1 h2 h3 h4 h5 h6
    injection h with h
    subst h
    intro cid c hc
    simp only at hc
    by_cases hk : cid = generate_consent_id owner consumer σ.consentCount
    · subst hk
      exact ⟨owner, consumer, σ.consentCount, by simp, rfl⟩
    · rw [fupd_other _ _ _ hk] at hc
      obtain ⟨o, k, n, hn, he⟩ := hinv cid c hc
      exact ⟨o, k, n, by simp; omega, he⟩
  | revoke revoker cid0 now =>
    simp only [applyCons, revoke_consent] at h
    split at h
    · cases h
    case _ consent hc0 =>
      split_ifs at h with h1 h2
      injection h with h
      subst h
      intro cid c hc
      simp only at hc
      by_cases hk : cid = cid0
      · subst hk
        exact hinv cid consent hc0
      · rw [fupd_other _ _ _ hk] at hc
        exact hinv cid c hc
  | update updater cid0 e dts now =>
    simp only [applyCons, update_consent] at h
    split at h
    · cases h
    case _ consent hc0 =>
      split_ifs at h with h1 h2 h3 h4
      injection h with h
      subst h
      intro cid c hc
      simp only at hc
      by_cases hk : cid = cid0
      · subst hk
        exact hinv cid consent hc0
      · rw [fupd_other _ _ _ hk] at hc
        exact hinv cid c hc
  | logAccess accessor cid0 data_hash now =>
    simp only [applyCons, log_access] at h
    split at h
    · cases h
    case _ consent hc0 =>
      split_ifs at h with h1 h2 h3
      injection h with h
      subst h
      intro cid c hc
      simp only at hc
      by_cases hk : cid = cid0
      · subst hk
        exact hinv cid consent hc0
      · rw [fupd_other _ _ _ hk] at hc
        exact hinv cid c hc
  | check cid0 accessor now =>
    simp only [applyCons] at h
    split at h
    · injection h with h
      subst h
      exact hinv
    · cases h

/-- Every reachable consent-manager state satisfies ConsInv. -/
theorem consReachable_inv {σ : ConsentState} (h : ConsReachable σ) : ConsInv σ := by
  induction h with
  | refl => exact consInv_init
  | tail _ hstep ih =>
    obtain ⟨ids, op, hop⟩ := hstep
    exact applyCons_preserves_consInv ih op hop

/-- Claim C8: Revoked is terminal.  In every reachable ConsentManager state,
once a consent has status Revoked, no successful ConsentManager operation
(create_consent, revoke_consent, update_consent, log_access, check_consent)
changes that status; in particular it never returns to Active. -/
theorem revoked_is_terminal (σ σ2 : ConsentState) (cid : Nat) (c : Consent)
    (hreach : ConsReachable σ) (hc : σ.consents cid = some c)
    (hrev : c.status = .Revoked) (hstep : ConsStep σ σ2) :
    ∃ c2, σ2.consents cid = some c2 ∧ c2.status = .Revoked := by
  have hinv := consReachable_inv hreach
  obtain ⟨ids, op, hop⟩ := hstep
  cases op with
  | create owner consumer purpose data_types expires_at terms_hash now =>
    simp only [applyCons, create_consent] at hop
    split_ifs at hop with h1 h2 h3 h4 h5 h6
    injection hop with hop
    subst hop
    obtain ⟨o, k, n, hn, he⟩ := hinv cid c hc
    have hne : cid ≠ generate_consent_id owner consumer σ.consentCount := by
      intro heq
      rw [he] at heq
      simp only [generate_consent_id] at heq
      have := (Nat.pair_eq_pair.mp heq).2
      omega
    refine ⟨c, ?_, hrev⟩
    simp only
    rw [fupd_other _ _ _ hne]
    exact hc
  | revoke revoker cid0 now =>
    simp only [applyCons, revoke_consent] at hop
    split at hop
    · cases hop
    case _ consent hc0 =>
      split_ifs at hop with h1 h2
      injection hop with hop
      subst hop
      by_cases hk : cid = cid0
      · subst hk
        rw [hc0] at hc
        cases hc
        exact absurd hrev h2
      · refine ⟨c, ?_, hrev⟩
        simp only
        rw [fupd_other _ _ _ hk]
        exact hc
  | update updater cid0 e dts now =>
    simp only [applyCons, update_consent] at hop
    split at hop
    · cases hop
    case _ consent hc0 =>
      split_ifs at hop with h1 h2 h3 h4
      injection hop with hop
      subst hop
      by_cases hk : cid = cid0
      · subst hk
        rw [hc0] at hc
        cases hc
        rw [hrev] at h2
        simp at h2
      · refine ⟨c, ?_, hrev⟩
        simp only
        rw [fupd_other _ _ _ hk]
        exact hc
  | logAccess accessor cid0 data_hash now =>
    simp only [applyCons, log_access] at hop
    split at hop
    · cases hop
    case _ consent hc0 =>
      split_ifs at hop with h1 h2 h3
      injection hop with hop
      subst hop
      by_cases hk : cid = cid0
      · subst hk
        rw [hc0] at hc
        cases hc
        rw [hrev] at h1
        simp at h1
      · refine ⟨c, ?_, hrev⟩
        simp only
        rw [fupd_other _ _ _ hk]
        exact hc
  | check cid0 accessor now =>
    simp only [applyCons] at hop
    split at hop
    · injection hop with hop
      subst hop
      exact ⟨c, hc, hrev⟩
    · cases hop

/-- A second concrete DID. -/
def didW2 : List Nat := List.replicate 10 2

/-- The state after additionally registering account 2 as a Researcher. -/
def idsR2 : IdState := exOk (register_identity idsR1 2 didW2 .Researcher [1] 0 0) idsR1

/-- Consent storage after patient 1 creates a consent for researcher 2. -/
def consC1 : ConsentState :=
  exOk (create_consent idsR2 initCons 1 2 .Research [.LabResults] 0 0 0) initCons

/-- The id of that consent. -/
def cidW : Nat := generate_consent_id 1 2 0

/-- Consent storage after owner 1 revokes that consent at time 5. -/
def consC2 : ConsentState := exOk (revoke_consent consC1 1 cidW 5) consC1

/-- The revoked consent record as stored in consC2. -/
def cW : Consent :=
  { consent_id := cidW, data_owner := 1, data_consumer := 2, purpose := .Research
    data_types := [.LabResults], created_at := 0, expires_at := 0
    status := .Revoked, revoked_at := some 5, access_count := 0
    last_accessed := none, terms_hash := 0 }

theorem consC2_reachable : ConsReachable consC2 :=
  Relation.ReflTransGen.tail
    (Relation.ReflTransGen.single
      ⟨idsR2, ConsOp.create 1 2 .Research [.LabResults] 0 0 0, rfl⟩)
    ⟨idsR2, ConsOp.revoke 1 cidW 5, rfl⟩

theorem revoked_is_terminal_witness :
    ∃ c2, (exOk (create_consent idsR2 consC2 1 2 .Research [.LabResults] 0 0 9) consC2).consents
      cidW = some c2 ∧ c2.status = .Revoked :=
  revoked_is_terminal consC2
    (exOk (create_consent idsR2 consC2 1 2 .Research [.LabResults] 0 0 9) consC2)
    cidW cW consC2_reachable rfl rfl
    ⟨idsR2, ConsOp.create 1 2 .Research [.LabResults] 0 0 9, rfl⟩

/-- Every stored key id was generated from some owner and a nonce strictly
below the current key counter. -/
def EncInv (σ : EncState) : Prop :=
  ∀ kid k, σ.encryptionKeys kid = some k → ∃ o n, n < σ.keyCount ∧ kid = Nat.pair o n

theorem encInv_init : EncInv initEnc := by
  intro kid k h
  simp [initEnc] at h

/-- Every successful encryption-pallet operation preserves EncInv. -/
theorem applyEnc_preserves_encInv {maxKeys : Nat} {σ σ2 : EncState}
    (hinv : EncInv σ) (op : EncOp) (h : applyEnc maxKeys σ op = .ok σ2) : EncInv σ2 := by
  cases op with
  | generate owner algorithm purpose record_id expires_at now =>
    simp only [applyEnc, generate_key] at h
    split_ifs at h with h1 h2
    injection h with h
    subst h
    intro kid k hk
    simp only at hk
    by_cases hkk : kid = generate_key_id owner σ.keyCount
    · subst hkk
      exact ⟨owner, σ.keyCount, by simp, rfl⟩
    · rw [fupd_other _ _ _ hkk] at hk
      obtain ⟨o, n, hn, he⟩ := hinv kid k hk
      exact ⟨o, n, by simp; omega, he⟩
  | rotate who record_id new_algorithm expires_at now =>
    simp only [applyEnc, rotate_key] at h
    split at h
    · cases h
    case _ old_key_id hrk =>
      split at h
      · cases h
      case _ old_key hok =>
        split_ifs at h with h1 h2
        injection h with h
        subst h
        intro kid k hk
        simp only at hk
        by_cases hko : kid = old_key_id
        · subst hko
          obtain ⟨o, n, hn, he⟩ := hinv kid old_key hok
          exact ⟨o, n, by simp; omega, he⟩
        · rw [fupd_other _ _ _ hko] at hk
          by_cases hkn : kid = generate_key_id who σ.keyCount
          · subst hkn
            exact ⟨who, σ.keyCount, by simp, rfl⟩
          · rw [fupd_other _ _ _ hkn] at hk
            obtain ⟨o, n, hn, he⟩ := hinv kid k hk
            exact ⟨o, n, by simp; omega, he⟩
  | revokeKey who key_id =>
    simp only [applyEnc, revoke_key] at h
    split at h
    · cases h
    case _ key hok =>
      split_ifs at h with h1 h2
      injection h with h
      subst h
      intro kid k hk
      simp only at hk
      by_cases hko : kid = key_id
      · subst hko
        exact hinv kid key hok
      · rw [fupd_other _ _ _ hko] at hk
        exact hinv kid k hk
  | grantAccess who key_id grantee expires_at now =>
    simp only [applyEnc, grant_key_access] at h
    split at h
    · cases h
    case _ key hok =>
      split_ifs at h with h1
      injection h with h
      subst h
      intro kid k hk
      exact hinv kid k hk
  | revokeAccess who key_id grantee =>
    simp only [applyEnc, revoke_key_access] at h
    split at h
    · cases h
    case _ key hok =>
      split_ifs at h with h1
      injection h with h
      subst h
      intro kid k hk
      exact hinv kid k hk

/-- Every reachable encryption-pallet state satisfies EncInv. -/
theorem encReachable_inv {maxKeys : Nat} {σ : EncState}
    (h : EncReachable maxKeys σ) : EncInv σ := by
  induction h with
  | refl => exact encInv_init
  | tail _ hstep ih =>
    obtain ⟨op, hop⟩ := hstep
    exact applyEnc_preserves_encInv ih op hop

/-- Claim C9: after every successful rotate_key call from a reachable state,
the key the record index pointed to before the call is stored with
active = false, rotated = true and rotated_to = Some(new_key_id); the newly
created key is stored with active = true and rotated = false; and
get_record_key returns Some(new_key_id), where new_key_id is the id
generated from the caller and the pre-call counter. -/
theorem rotate_key_chain (maxKeys : Nat) (σ σ2 : EncState) (who record_id : Nat)
    (new_algorithm : EncryptionAlgorithm) (expires_at : Option Nat) (now : Nat)
    (old_key_id : Nat) (hreach : EncReachable maxKeys σ)
    (hold : σ.recordKeys record_id = some old_key_id)
    (h : rotate_key maxKeys σ who record_id new_algorithm expires_at now = .ok σ2) :
    ∃ old_key new_key,
      σ.encryptionKeys old_key_id = some old_key ∧
      σ2.encryptionKeys old_key_id =
        some { old_key with active := false, rotated := true
                            rotated_to := some (generate_key_id who σ.keyCount) } ∧
      σ2.encryptionKeys (generate_key_id who σ.keyCount) = some new_key ∧
      new_key.active = true ∧ new_key.rotated = false ∧
      get_record_key σ2 record_id = some (generate_key_id who σ.keyCount) := by
  have hinv := encReachable_inv hreach
  simp only [rotate_key, hold] at h
  split at h
  · cases h
  case _ old_key hok =>
    split_ifs at h with h1 h2
    injection h with h
    subst h
    obtain ⟨o, n, hn, he⟩ := hinv old_key_id old_key hok
    have hne : old_key_id ≠ generate_key_id who σ.keyCount := by
      intro heq
      rw [he] at heq
      simp only [generate_key_id] at heq
      have := (Nat.pair_eq_pair.mp heq).2
      omega
    refine ⟨old_key,
      { key_id := generate_key_id who σ.keyCount, owner := who
        algorithm := new_algorithm, purpose := old_key.purpose
        record_id := some record_id, created_at := now, expires_at := expires_at
        active := true, rotated := false, rotated_to := none },
      hok, ?_, ?_, rfl, rfl, ?_⟩
    · simp only
      rw [fupd_same]
    · simp only
      rw [fupd_other _ _ _ (Ne.symm hne), fupd_same]
    · simp only [get_record_key]
      rw [fupd_same]

/-- Encryption storage after account 1 generates a key for record 7. -/
def encE1 : EncState :=
  exOk (generate_key 5 initEnc 1 .ChaCha20Poly1305 .RecordEncryption (some 7) none 0) initEnc

theorem rotate_key_chain_witness :
    ∃ old_key new_key,
      encE1.encryptionKeys (generate_key_id 1 0) = some old_key ∧
      (exOk (rotate_key 5 encE1 1 7 .AES256GCM none 3) encE1).encryptionKeys
          (generate_key_id 1 0) =
        some { old_key with active := false, rotated := true
                            rotated_to := some (generate_key_id 1 encE1.keyCount) } ∧
      (exOk (rotate_key 5 encE1 1 7 .AES256GCM none 3) encE1).encryptionKeys
          (generate_key_id 1 encE1.keyCount) = some new_key ∧
      new_key.active = true ∧ new_key.rotated = false ∧
      get_record_key (exOk (rotate_key 5 encE1 1 7 .AES256GCM none 3) encE1) 7 =
        some (generate_key_id 1 encE1.keyCount) :=
  rotate_key_chain 5 encE1 (exOk (rotate_key 5 encE1 1 7 .AES256GCM none 3) encE1)
    1 7 .AES256GCM none 3 (generate_key_id 1 0)
    (Relation.ReflTransGen.single
      ⟨EncOp.generate 1 .ChaCha20Poly1305 .RecordEncryption (some 7) none 0, rfl⟩)
    rfl rfl

/-- Transactional run of one consent-manager call: the state visible after
the call (the starting state if the call failed). -/
def runCons (ids : IdState) (σ : ConsentState) (op : ConsOp) : ConsentState :=
  match applyCons ids σ op with
  | .ok σ2 => σ2
  | .error _ => σ

/-- Claim C1: for every operation of the four core modules and every starting
state, if the call returns an error then the state visible after the call is
the starting state: every storage write made during the failing call is
discarded, including the multi-step error paths of rotate_key and
create_consent whose bodies write before the failing check. -/
theorem failing_call_rolls_back (maxKeys : Nat) (w : World) (op : Op) (e : Err)
    (h : applyWorld maxKeys w op = .error e) :
    dispatchWorld maxKeys w op = (w, some e) := by
  simp [dispatchWorld, h]

/-- Encryption storage whose owner is at the key cap maxKeys = 1. -/
def encCap : EncState :=
  exOk (generate_key 1 initEnc 1 .ChaCha20Poly1305 .RecordEncryption (some 7) none 0) initEnc

/-- A world in which rotate_key on record 7 fails with MaxKeysReached. -/
def worldCap : World := { initWorld with enc := encCap }

theorem failing_call_rolls_back_witness :
    applyWorld 1 worldCap (Op.encOp (EncOp.rotate 1 7 .AES256GCM none 3)) =
      .error .MaxKeysReached ∧
    dispatchWorld 1 worldCap (Op.encOp (EncOp.rotate 1 7 .AES256GCM none 3)) =
      (worldCap, some .MaxKeysReached) :=
  ⟨rfl, failing_call_rolls_back 1 worldCap (Op.encOp (EncOp.rotate 1 7 .AES256GCM none 3))
    .MaxKeysReached rfl⟩

/-- Amended claim C2: a log_access call on an Active consent whose non-zero
expires_at is strictly below the clock fails with ConsentExpired, and the
in-call flip of the status to Expired is discarded with the failing
transaction: the visible state after the call is the starting state, so the
stored status is still Active. -/
theorem log_access_expired_fails_and_rolls_back (ids : IdState) (σ : ConsentState)
    (accessor cid data_hash now : Nat) (c : Consent)
    (hc : σ.consents cid = some c) (hact : c.status = .Active)
    (hex : c.expires_at ≠ 0) (hlt : c.expires_at < now) :
    log_access σ accessor cid data_hash now = .error .ConsentExpired ∧
    runCons ids σ (ConsOp.logAccess accessor cid data_hash now) = σ := by
  have herr : log_access σ accessor cid data_hash now = .error .ConsentExpired := by
    simp only [log_access, hc, hact]
    have h1 : ¬ ConsentStatus.Active ≠ ConsentStatus.Active := by simp
    rw [if_neg h1, if_pos ⟨Nat.pos_of_ne_zero hex, hlt⟩]
  refine ⟨herr, ?_⟩
  simp only [runCons, applyCons, herr]

/-- Consent storage with one Active consent for researcher 2 created by
patient 1 at time 0 with expires_at = 100. -/
def consE : ConsentState :=
  exOk (create_consent idsR2 initCons 1 2 .Research [.LabResults] 100 0 0) initCons

/-- The consent record stored in consE. -/
def cE : Consent :=
  { consent_id := cidW, data_owner := 1, data_consumer := 2, purpose := .Research
    data_types := [.LabResults], created_at := 0, expires_at := 100
    status := .Active, revoked_at := none, access_count := 0
    last_accessed := none, terms_hash := 0 }

theorem log_access_expired_fails_and_rolls_back_witness :
    log_access consE 2 cidW 0 200 = .error .ConsentExpired ∧
    runCons idsR2 consE (ConsOp.logAccess 2 cidW 0 200) = consE :=
  log_access_expired_fails_and_rolls_back idsR2 consE 2 cidW 0 200 cE rfl rfl
    (by decide) (by decide)

/-- Counterexample to claim C2 as stated: at a concrete Active consent with
expires_at = 100 and clock 200, log_access fails with ConsentExpired, but the
stored status afterwards is still Active, not Expired — the flip inside the
failing call is rolled back. -/
theorem log_access_expiry_flip_not_persisted :
    consE.consents cidW = some cE ∧ cE.status = .Active ∧
    cE.expires_at ≠ 0 ∧ cE.expires_at < 200 ∧
    log_access consE 2 cidW 0 200 = .error .ConsentExpired ∧
    (runCons idsR2 consE (ConsOp.logAccess 2 cidW 0 200)).consents cidW = some cE ∧
    cE.status ≠ .Expired :=
  ⟨rfl, rfl, by decide, by decide, rfl, rfl, by decide⟩

/-- Amended claim C4: the role gate is necessary but not sufficient.
create_consent succeeds exactly when the owner has the Patient role, the
consumer has the Researcher or Institution role, data_types is non-empty,
expires_at is zero or strictly in the future, and both the owner index and
the consumer index are below their capacity of 1000. -/
theorem create_consent_success_characterization (ids : IdState) (σ : ConsentState)
    (owner consumer : Nat) (purpose : DataPurpose) (data_types : List DataType)
    (expires_at terms_hash now : Nat) :
    (∃ σ2, create_consent ids σ owner consumer purpose data_types expires_at
        terms_hash now = .ok σ2) ↔
    (has_role ids owner .Patient = true ∧
     (has_role ids consumer .Researcher = true ∨
       has_role ids consumer .Institution = true) ∧
     data_types ≠ [] ∧ (expires_at = 0 ∨ now < expires_at) ∧
     (σ.ownerConsents owner).length < 1000 ∧
     (σ.consumerConsents consumer).length < 1000) := by
  simp only [create_consent]
  split_ifs with h1 h2 h3 h4 h5 h6
  · simp [h1]
  · rw [Bool.or_eq_false_iff] at h2
    simp [h2.1, h2.2]
  · simp [h3]
  · constructor
    · rintro ⟨s2, hh⟩
      cases hh
    · rintro ⟨-, -, -, he, -, -⟩
      omega
  · constructor
    · rintro ⟨s2, hh⟩
      cases hh
    · rintro ⟨-, -, -, -, hl, -⟩
      omega
  · constructor
    · rintro ⟨s2, hh⟩
      cases hh
    · rintro ⟨-, -, -, -, -, hl⟩
      omega
  · constructor
    · intro
      refine ⟨?_, ?_, h3, by omega, by omega, by omega⟩
      · cases hp : has_role ids owner .Patient
        · exact absurd hp h1
        · rfl
      · cases hR : has_role ids consumer .Researcher
        · cases hI : has_role ids consumer .Institution
          · exact absurd (by rw [hR, hI]; rfl) h2
          · exact Or.inr rfl
        · exact Or.inl rfl
    · intro
      exact ⟨_, rfl⟩

/-- Counterexample to claim C4 as stated: with patient 1 and researcher 2
both registered (so the role conditions hold), create_consent with an empty
data_types list fails with InvalidDataTypes — the role gate is not
sufficient for success. -/
theorem role_gate_not_sufficient :
    has_role idsR2 1 .Patient = true ∧ has_role idsR2 2 .Researcher = true ∧
    create_consent idsR2 initCons 1 2 .Research [] 0 0 0 = .error .InvalidDataTypes :=
  ⟨rfl, rfl, rfl⟩

/-- Amended claim C5: verify_identity and reject_verification fail with
NotAuthorized exactly when the caller holds no Identity with role Auditor.
The active flag of the caller is not checked by the source, so a deactivated
Auditor can still verify or reject any target. -/
theorem verify_reject_auditor_gate (σ : IdState) (verifier target : Nat)
    (reason : List Nat) (now : Nat) :
    (verify_identity σ verifier target now = .error .NotAuthorized ↔
      ¬ ∃ i, σ.identities verifier = some i ∧ i.role = .Auditor) ∧
    (reject_verification σ verifier target reason now = .error .NotAuthorized ↔
      ¬ ∃ i, σ.identities verifier = some i ∧ i.role = .Auditor) := by
  constructor
  · simp only [verify_identity]
    split
    · simp_all
    case _ vi hv =>
      split_ifs with h1
      · simp only [ne_eq, Decidable.not_not] at h1
        simp [hv, h1]
      case _ =>
        split
        · simp_all
        · simp_all
  · simp only [reject_verification]
    split
    · simp_all
    case _ vi hv =>
      split_ifs with h1
      · simp only [ne_eq, Decidable.not_not] at h1
        simp [hv, h1]
      case _ =>
        split
        · simp_all
        · simp_all

/-- A third concrete DID. -/
def didW3 : List Nat := List.replicate 10 3

/-- Identity storage with patient 1 and auditor 3 registered. -/
def idsA1 : IdState := exOk (register_identity idsR1 3 didW3 .Auditor [1] 0 0) idsR1

/-- The same storage after auditor 3 deactivates its own identity. -/
def idsA2 : IdState := exOk (deactivate_identity idsA1 3 1) idsA1

/-- Counterexample to claim C5 as stated: account 3 holds an Auditor identity
whose active flag is false, yet its verify_identity call on account 1
succeeds instead of failing with NotAuthorized. -/
theorem deactivated_auditor_can_verify :
    (∃ i, idsA2.identities 3 = some i ∧ i.role = .Auditor ∧ i.active = false) ∧
    (∃ σ2, verify_identity idsA2 3 1 2 = .ok σ2) :=
  ⟨⟨_, rfl, rfl, rfl⟩, ⟨_, rfl⟩⟩

/-- Amended claim C6: is_consent_valid agrees with check_consent on every
input where the clock does not sit exactly on a non-zero expiry: under that
side condition, is_consent_valid returns true exactly when check_consent
succeeds.  At the excluded boundary now = expires_at (non-zero) the two
disagree: check_consent still succeeds while is_consent_valid is false. -/
theorem is_consent_valid_matches_check_consent (σ : ConsentState)
    (cid accessor now : Nat)
    (hb : ∀ c, σ.consents cid = some c → ¬(c.expires_at ≠ 0 ∧ now = c.expires_at)) :
    (is_consent_valid σ cid accessor now = true ↔
      check_consent σ cid accessor now = .ok ()) := by
  cases hσ : σ.consents cid with
  | none => simp [is_consent_valid, check_consent, hσ]
  | some c =>
    have hbc := hb c hσ
    simp only [is_consent_valid, check_consent, hσ, Bool.and_eq_true, Bool.or_eq_true,
      decide_eq_true_eq]
    split_ifs with h1 h2 h3
    · simp [h1]
    · simp only [ne_eq, Decidable.not_not] at h1
      constructor
      · rintro ⟨⟨-, he | he⟩, -⟩ <;> omega
      · intro hh
        cases hh
    · constructor
      · rintro ⟨⟨-, -⟩, hcons⟩
        exact absurd hcons h3
      · intro hh
        cases hh
    · simp only [ne_eq, Decidable.not_not] at h1 h3
      constructor
      · intro
        rfl
      · intro
        refine ⟨⟨h1, ?_⟩, h3⟩
        by_cases hz : c.expires_at = 0
        · exact Or.inl hz
        · right
          have hne : ¬ now = c.expires_at := fun hh => hbc ⟨hz, hh⟩
          omega

theorem is_consent_valid_matches_check_consent_witness :
    is_consent_valid consE cidW 2 50 = true ↔ check_consent consE cidW 2 50 = .ok () :=
  is_consent_valid_matches_check_consent consE cidW 2 50 (by
    intro c hc
    rw [show consE.consents cidW = some cE from rfl] at hc
    injection hc with hc
    subst hc
    decide)

/-- Counterexample to claim C6 as stated: at the boundary clock value
now = expires_at = 100, check_consent succeeds but is_consent_valid returns
false — the two predicates disagree on this input. -/
theorem boundary_expiry_disagreement :
    check_consent consE cidW 2 100 = .ok () ∧
    is_consent_valid consE cidW 2 100 = false :=
  ⟨rfl, rfl⟩

/-- Amended claim C7: has_access is true exactly when an AccessGrant entry
exists for (record_id, requester) with expires_at strictly greater than the
query time; and after a successful grant_access with expires_at = E where
E ≥ 1, has_access is true at t = E - 1 and false at t = E.  For E = 0 the
grant is already expired at every query time, so the E - 1 consequence of
the claim fails there. -/
theorem has_access_characterization :
    (∀ (σ : AccessState) (record_id requester now : Nat),
      has_access σ record_id requester now = true ↔
        ∃ e, σ.accessGrants record_id requester = some e ∧ now < e) ∧
    (∀ (σ σ2 : AccessState) (who request_id E now : Nat) (r : AccessRequest),
      σ.accessRequests request_id = some r →
      grant_access σ who request_id E now = .ok σ2 → 1 ≤ E →
      has_access σ2 r.record_id r.requester (E - 1) = true ∧
      has_access σ2 r.record_id r.requester E = false) := by
  constructor
  · intro σ record_id requester now
    simp only [has_access]
    split
    case _ e he => simp [he]
    case _ he => simp [he]
  · intro σ σ2 who request_id E now r hr hg hE
    simp only [grant_access, hr] at hg
    split_ifs at hg with h1
    injection hg with hg
    subst hg
    constructor
    · simp only [has_access, fupd_same]
      simp only [decide_eq_true_eq]
      omega
    · simp only [has_access, fupd_same]
      simp

/-- Access-control storage after requester 2 files a request for record 10
owned by patient 1. -/
def accA1 : AccessState := exOk (request_access initAcc 2 10 1 99 0) initAcc

/-- The id of that request. -/
def ridW : Nat := generate_request_id 2 0

theorem has_access_characterization_witness :
    (has_access (exOk (grant_access accA1 1 ridW 5 1) accA1) 10 2 4 = true ∧
     has_access (exOk (grant_access accA1 1 ridW 5 1) accA1) 10 2 5 = false) :=
  has_access_characterization.2 accA1 (exOk (grant_access accA1 1 ridW 5 1) accA1)
    1 ridW 5 1
    { request_id := ridW, record_id := 10, requester := 2, patient := 1
      consent_id := some 99, status := .Pending, requested_at := 0
      responded_at := none }
    rfl rfl (by decide)

/-- Counterexample to claim C7 as stated: granting with expires_at = E = 0
succeeds, but has_access at t = E - 1 (natural subtraction, so t = 0) is
false, not true — the stated consequence fails at E = 0 since such a grant
is expired at every query time. -/
theorem grant_zero_expiry_has_no_access :
    grant_access accA1 1 ridW 0 1 = .ok (exOk (grant_access accA1 1 ridW 0 1) accA1) ∧
    has_access (exOk (grant_access accA1 1 ridW 0 1) accA1) 10 2 (0 - 1) = false :=
  ⟨rfl, rfl⟩

/-- Claim C10: denying an already-granted request succeeds for the patient,
overwrites the request status to Denied and updates responded_at, but leaves
the AccessGrants map untouched: has_access is unchanged on every input. -/
theorem deny_after_grant_keeps_grant (σ σ1 : AccessState)
    (who request_id E now1 now2 : Nat) (r : AccessRequest)
    (hr : σ.accessRequests request_id = some r)
    (hg : grant_access σ who request_id E now1 = .ok σ1) :
    σ1.accessGrants r.record_id r.requester = some E ∧
    ∃ σ2, deny_access σ1 who request_id now2 = .ok σ2 ∧
      σ2.accessRequests request_id =
        some { r with status := .Denied, responded_at := some now2 } ∧
      σ2.accessGrants = σ1.accessGrants ∧
      ∀ rid q t, has_access σ2 rid q t = has_access σ1 rid q t := by
  simp only [grant_access, hr] at hg
  split_ifs at hg with h1
  injection hg with hg
  subst hg
  simp only [ne_eq, Decidable.not_not] at h1
  refine ⟨?_, ?_⟩
  · simp only [fupd_same]
  · refine ⟨{ accessRequests := (fupd (fupd σ.accessRequests request_id
                 (some { r with status := .Granted, responded_at := some now1 })) request_id
                 (some { r with status := .Denied, responded_at := some now2 })),
               accessGrants := (fupd σ.accessGrants r.record_id
                 (fupd (σ.accessGrants r.record_id) r.requester (some E))),
               requestCount := σ.requestCount }, ?_, ?_, rfl, fun rid q t => rfl⟩
    · simp only [deny_access, fupd_same]
      rw [if_neg (by simp [h1])]
    · simp only [fupd_same]

def accG1 : AccessState := exOk (grant_access accA1 1 ridW 5 1) accA1

theorem deny_after_grant_keeps_grant_witness :
    accG1.accessGrants 10 2 = some 5 ∧
    ∃ σ2, deny_access accG1 1 ridW 3 = .ok σ2 ∧
      σ2.accessRequests ridW =
        some { request_id := ridW, record_id := 10, requester := 2, patient := 1
               consent_id := some 99, status := .Denied, requested_at := 0
               responded_at := some 3 } ∧
      σ2.accessGrants = accG1.accessGrants ∧
      ∀ rid q t, has_access σ2 rid q t = has_access accG1 rid q t :=
  deny_after_grant_keeps_grant accA1 accG1 1 ridW 5 1 3
    { request_id := ridW, record_id := 10, requester := 2, patient := 1
      consent_id := some 99, status := .Pending, requested_at := 0
      responded_at := none }
    rfl rfl
